import Mathlib

/-!
Verification of the autoboulevard WhatsApp-mirror server.

The repository keeps several snapshots of the same Express + better-sqlite3 +
Baileys server.  The shallow embedding below models, from the source files:

* the `messages` table as a `List Row` in insertion order, and the prepared
  statement `insMsg` (`INSERT OR IGNORE` guarded by the unique index
  `uniq_msg ON messages(slot, jid, ts, type, text)`) of `src/unnamed/part_001`;
* the read queries `selHistoryAsc` / `selHistory` + JS re-sort, `selInbox`,
  and the `/stats` aggregation, with SQL `ORDER BY` modelled as `insertionSort`
  and SQL `LIMIT ?` modelled with SQLite's semantics (a negative bound means
  "no limit");
* the per-slot `connection.update` handler and the backfill machinery
  (`backfillChat` / `backfillAllChats` of `src/unnamed/part_004`, the bounded
  scheduler of `backfillAll` in `src/unnamed/part_001`).
-/

namespace Autoboulevard

/-- A row of the `messages` table (columns of the `CREATE TABLE` statement,
minus the autoincrement surrogate `id`). -/
structure Row where
  slot : String
  jid : String
  from_number : String
  ts : Int
  type : String
  text : String
deriving DecidableEq

/-- The column tuple of the unique index
`uniq_msg ON messages(slot, jid, ts, type, text)` (part_001 line 45).
`from_number` is *not* part of the key. -/
def dedupKey (r : Row) : String × String × Int × String × String :=
  (r.slot, r.jid, r.ts, r.type, r.text)

/-- Statement `insMsg` of part_001: `INSERT OR IGNORE INTO messages ...` — the row is
appended unless a stored row already has the same `uniq_msg` tuple. -/
def insMsg (db : List Row) (r : Row) : List Row :=
  if db.any fun x => dedupKey x == dedupKey r then db else db ++ [r]

/-- Number of stored rows having a given `uniq_msg` tuple. -/
def countKey (db : List Row) (k : String × String × Int × String × String) : Nat :=
  (db.filter fun x => dedupKey x == k).length

theorem any_key_of_mem {db : List Row} {r : Row} (h : r ∈ db) :
    (db.any fun x => dedupKey x == dedupKey r) = true := by
  exact List.any_eq_true.mpr ⟨r, h, beq_self_eq_true _⟩

/-- C1: re-ingesting the same `(slot, jid, ts, type, text)` tuple is a no-op:
`insMsg` is idempotent, and starting from a store with no row for that tuple,
ingesting the row twice leaves exactly one row for the tuple. -/
theorem c1_ingest_idempotent (db : List Row) (r : Row) :
    insMsg (insMsg db r) r = insMsg db r ∧
    (countKey db (dedupKey r) = 0 →
      countKey (insMsg (insMsg db r) r) (dedupKey r) = 1) := by
  by_cases h : (db.any fun x => dedupKey x == dedupKey r) = true
  · constructor
    · simp [insMsg, h]
    · intro h0
      exfalso
      unfold countKey at h0
      rcases List.any_eq_true.mp h with ⟨x, hx, hk⟩
      have : x ∈ db.filter fun y => dedupKey y == dedupKey r :=
        List.mem_filter.mpr ⟨hx, hk⟩
      have := List.length_pos.mpr (List.ne_nil_of_mem this)
      omega
  · have h1 : insMsg db r = db ++ [r] := by simp [insMsg, h]
    have hmem : r ∈ db ++ [r] :=
      List.mem_append_right _ (List.mem_singleton.mpr rfl)
    have h2 : insMsg (insMsg db r) r = insMsg db r := by
      rw [h1]
      show insMsg (db ++ [r]) r = db ++ [r]
      unfold insMsg
      rw [if_pos (any_key_of_mem hmem)]
    refine ⟨h2, fun h0 => ?_⟩
    rw [h2, h1]
    unfold countKey at h0 ⊢
    rw [List.filter_append]
    have hnil : (db.filter fun x => dedupKey x == dedupKey r) = [] :=
      List.length_eq_zero.mp h0
    simp [hnil]

/-- Witness for C1 at a concrete message (the spec's live/backfill scenario
row): the empty store has no row for the tuple, and ingesting twice leaves
exactly one. -/
theorem c1_ingest_idempotent_witness :
    (let r : Row := ⟨"A", "55511@x", "55511", 1000, "in", "hi"⟩
     insMsg (insMsg [] r) r = insMsg [] r ∧
     countKey (insMsg (insMsg [] r) r) (dedupKey r) = 1) :=
  ⟨(c1_ingest_idempotent [] _).1, (c1_ingest_idempotent [] _).2 (by decide)⟩

/-! Read queries: `ORDER BY ts` and `LIMIT ?` -/

/-- Ascending timestamp order (`ORDER BY ts ASC`). -/
def tsLe (a b : Row) : Prop := a.ts ≤ b.ts

/-- Descending timestamp order (`ORDER BY ts DESC`). -/
def tsGe (a b : Row) : Prop := b.ts ≤ a.ts

instance : DecidableRel tsLe := fun a b => inferInstanceAs (Decidable (a.ts ≤ b.ts))

instance : DecidableRel tsGe := fun a b => inferInstanceAs (Decidable (b.ts ≤ a.ts))

instance : IsTotal Row tsLe := ⟨fun a b => Int.le_total a.ts b.ts⟩

instance : IsTotal Row tsGe := ⟨fun a b => Int.le_total b.ts a.ts⟩

instance : IsTrans Row tsLe := ⟨fun _ _ _ hab hbc => le_trans hab hbc⟩

instance : IsTrans Row tsGe := ⟨fun _ _ _ hab hbc => le_trans hbc hab⟩

/-- SQLite `LIMIT ?` with a bound parameter: a negative bound means
"no upper bound on the number of rows returned". -/
def applyLimit {α : Type} (k : Int) (l : List α) : List α :=
  if k < 0 then l else l.take k.toNat

theorem applyLimit_sublist {α : Type} (k : Int) (l : List α) :
    (applyLimit k l).Sublist l := by
  unfold applyLimit
  split
  · exact List.Sublist.refl l
  · exact List.take_sublist _ l

theorem length_applyLimit_le {α : Type} {k : Int} (hk : 0 ≤ k) (l : List α) :
    (applyLimit k l).length ≤ k.toNat := by
  unfold applyLimit
  rw [if_neg (by omega)]
  exact le_trans (List.length_take_le _ _) (le_refl _)

/-- Clause `(? IS NULL OR ts < ?)` with `before` bound to both placeholders. -/
def beforeOk (before : Option Int) (t : Int) : Bool :=
  match before with
  | none => true
  | some b => t < b

/-- Clause `WHERE slot = ? AND from_number = ? AND (? IS NULL OR ts < ?)` of the
history statements. -/
def histPred (slot f : String) (before : Option Int) (m : Row) : Bool :=
  m.slot == slot && m.from_number == f && beforeOk before m.ts

/-- Statement `selHistoryAsc` of part_004 (lines 68-74):
`... ORDER BY ts ASC LIMIT ?`. -/
def selHistoryAsc (db : List Row) (slot f : String) (before : Option Int)
    (limit : Int) : List Row :=
  applyLimit limit (List.insertionSort tsLe (db.filter (histPred slot f before)))

/-- Statement `selHistory` of part_002 (lines 77-84): `... ORDER BY ts DESC LIMIT ?`. -/
def selHistory (db : List Row) (slot f : String) (before : Option Int)
    (limit : Int) : List Row :=
  applyLimit limit (List.insertionSort tsGe (db.filter (histPred slot f before)))

/-- The row list returned by part_002's `GET /history` (lines 297-312): the
`ts DESC`-scanned `selHistory` rows re-sorted ascending by
`rows.sort((a, b) => a.ts - b.ts)` before responding. -/
def historyRowsAsc (db : List Row) (slot f : String) (before : Option Int)
    (limit : Int) : List Row :=
  List.insertionSort tsLe (selHistory db slot f before limit)

theorem mem_historyRowsAsc {db : List Row} {slot f : String}
    {before : Option Int} {limit : Int} {m : Row}
    (h : m ∈ historyRowsAsc db slot f before limit) :
    m ∈ db ∧ histPred slot f before m = true := by
  rw [historyRowsAsc, List.mem_insertionSort] at h
  have h2 := (applyLimit_sublist limit _).mem h
  rw [List.mem_insertionSort] at h2
  exact ⟨(List.mem_filter.mp h2).1, (List.mem_filter.mp h2).2⟩

theorem mem_selHistoryAsc {db : List Row} {slot f : String}
    {before : Option Int} {limit : Int} {m : Row}
    (h : m ∈ selHistoryAsc db slot f before limit) :
    m ∈ db ∧ histPred slot f before m = true := by
  have h2 := (applyLimit_sublist limit _).mem h
  rw [List.mem_insertionSort] at h2
  exact ⟨(List.mem_filter.mp h2).1, (List.mem_filter.mp h2).2⟩

theorem histPred_spec {slot f : String} {before : Option Int} {m : Row}
    (h : histPred slot f before m = true) :
    m.slot = slot ∧ m.from_number = f ∧ ∀ b, before = some b → m.ts < b := by
  rw [histPred, Bool.and_eq_true, Bool.and_eq_true] at h
  refine ⟨by simpa using h.1.1, by simpa using h.1.2, fun b hb => ?_⟩
  subst hb
  simpa [beforeOk] using h.2

/-- C2: both history implementations — part_002's `ts DESC` scan + JS
ascending re-sort, and part_004's `ts ASC` scan — return at most `n` rows, all
of the requested slot and counterpart and strictly older than `before` when it
is given, in non-decreasing timestamp order. -/
theorem c2_history_bounded_filtered_ascending (db : List Row) (slot f : String)
    (before : Option Int) (n : Nat) :
    ((historyRowsAsc db slot f before (n : Int)).length ≤ n ∧
      List.Sorted tsLe (historyRowsAsc db slot f before (n : Int)) ∧
      ∀ m ∈ historyRowsAsc db slot f before (n : Int),
        m.slot = slot ∧ m.from_number = f ∧ ∀ b, before = some b → m.ts < b) ∧
    ((selHistoryAsc db slot f before (n : Int)).length ≤ n ∧
      List.Sorted tsLe (selHistoryAsc db slot f before (n : Int)) ∧
      ∀ m ∈ selHistoryAsc db slot f before (n : Int),
        m.slot = slot ∧ m.from_number = f ∧ ∀ b, before = some b → m.ts < b) := by
  have hn : (0 : Int) ≤ (n : Int) := Int.natCast_nonneg n
  have hto : ((n : Int)).toNat = n := Int.toNat_natCast n
  refine ⟨⟨?_, ?_, ?_⟩, ⟨?_, ?_, ?_⟩⟩
  · rw [historyRowsAsc]
    calc (List.insertionSort tsLe (selHistory db slot f before (n : Int))).length
        = (selHistory db slot f before (n : Int)).length :=
          (List.perm_insertionSort _ _).length_eq
      _ ≤ n := by rw [← hto]; exact length_applyLimit_le hn _
  · exact List.sorted_insertionSort tsLe _
  · exact fun m hm => histPred_spec (mem_historyRowsAsc hm).2
  · rw [← hto]; exact length_applyLimit_le hn _
  · exact List.Pairwise.sublist (applyLimit_sublist _ _)
      (List.sorted_insertionSort tsLe _)
  · exact fun m hm => histPred_spec (mem_selHistoryAsc hm).2

/-- Witness for C2: the spec's §8 scenario — slot "A", counterpart "555",
`before = 200`, limit 10 over timestamps 100/150/200/250; also checks the
returned lists are exactly `[100, 150]` ascending. -/
theorem c2_history_witness :
    (let db : List Row :=
      [⟨"A", "555@x", "555", 100, "in", "a"⟩, ⟨"A", "555@x", "555", 250, "in", "d"⟩,
       ⟨"A", "555@x", "555", 200, "in", "c"⟩, ⟨"A", "555@x", "555", 150, "in", "b"⟩]
     ((historyRowsAsc db "A" "555" (some 200) (10 : Int)).map Row.ts = [100, 150] ∧
      (selHistoryAsc db "A" "555" (some 200) (10 : Int)).map Row.ts = [100, 150]) ∧
     (historyRowsAsc db "A" "555" (some 200) ((10 : Nat) : Int)).length ≤ 10 ∧
      List.Sorted tsLe (historyRowsAsc db "A" "555" (some 200) ((10 : Nat) : Int))) := by
  refine ⟨⟨by decide, by decide⟩, ?_, ?_⟩
  · exact (c2_history_bounded_filtered_ascending _ "A" "555" (some 200) 10).1.1
  · exact (c2_history_bounded_filtered_ascending _ "A" "555" (some 200) 10).1.2.1

/-! Inbox query (`selInbox` of part_001, lines 54-65) -/

/-- Two rows belong to the same inbox thread: same `(slot, from_number)`. -/
def sameThread (a b : Row) : Prop := a.slot = b.slot ∧ a.from_number = b.from_number

instance : DecidableRel sameThread := fun a b =>
  inferInstanceAs (Decidable (a.slot = b.slot ∧ a.from_number = b.from_number))

/-- Relational translation of `selInbox`'s join: row `m` of `messages`
survives the join with
`SELECT slot, from_number, MAX(ts) ... WHERE from_number IS NOT NULL AND from_number <> '' GROUP BY slot, from_number`
exactly when its `from_number` is non-empty and its `ts` equals the maximum
timestamp of its `(slot, from_number)` group — i.e. no stored row of the same
group is strictly newer. -/
def isLatestInThread (db : List Row) (m : Row) : Bool :=
  m.from_number != "" &&
    db.all fun x =>
      !(x.slot == m.slot && x.from_number == m.from_number) || decide (x.ts ≤ m.ts)

/-- Statement `selInbox` of part_001: the joined rows `ORDER BY m.ts DESC LIMIT ?`. -/
def selInbox (db : List Row) (limit : Int) : List Row :=
  applyLimit limit (List.insertionSort tsGe (db.filter (isLatestInThread db)))

/-- C3 counterexample: two stored rows of the same slot with distinct `jid`s
(`"555@s"` and `"555@g"`) but the same derived counterpart `"555"` and the
same timestamp 100 — both are permitted by the `uniq_msg` index, both attain
the group's `MAX(ts)`, and `selInbox` returns *both*, so the inbox holds two
rows for the single `(slot, counterpart)` pair. -/
theorem c3_counterexample :
    (selInbox [⟨"A", "555@s", "555", 100, "in", "x"⟩,
               ⟨"A", "555@g", "555", 100, "in", "y"⟩] 10).map
        (fun r => (r.slot, r.from_number)) = [("A", "555"), ("A", "555")] ∧
    ¬ List.Pairwise (fun a b => ¬ sameThread a b)
        (selInbox [⟨"A", "555@s", "555", 100, "in", "x"⟩,
                   ⟨"A", "555@g", "555", 100, "in", "y"⟩] 10) := by
  constructor
  · decide
  · decide

theorem mem_selInbox {db : List Row} {limit : Int} {m : Row}
    (h : m ∈ selInbox db limit) : m ∈ db ∧ isLatestInThread db m = true := by
  have h2 := (applyLimit_sublist limit _).mem h
  rw [List.mem_insertionSort] at h2
  exact ⟨(List.mem_filter.mp h2).1, (List.mem_filter.mp h2).2⟩

theorem isLatestInThread_spec {db : List Row} {m : Row}
    (h : isLatestInThread db m = true) :
    m.from_number ≠ "" ∧ ∀ x ∈ db, sameThread x m → x.ts ≤ m.ts := by
  rw [isLatestInThread, Bool.and_eq_true, List.all_eq_true] at h
  refine ⟨by simpa using h.1, fun x hx hsame => ?_⟩
  have hor := h.2 x hx
  rw [Bool.or_eq_true, Bool.not_eq_true'] at hor
  have htrue : (x.slot == m.slot && x.from_number == m.from_number) = true := by
    simp [hsame.1, hsame.2]
  rcases hor with hne | hle
  · rw [htrue] at hne
    simp at hne
  · simpa using hle

/-- C3 (amended): `selInbox` returns at most `n` rows, each a stored row whose
timestamp is maximal in its `(slot, from_number)` thread, in descending
timestamp order; and *provided no two stored rows of the same thread share a
timestamp*, at most one row per thread is returned.  (As stated the claim is
false: on a timestamp tie within a thread the join returns every tied row —
see the counterexample.) -/
theorem c3_inbox_latest_per_thread (db : List Row) (n : Nat)
    (hnotie : db.Pairwise fun a b => sameThread a b → a.ts ≠ b.ts) :
    (selInbox db (n : Int)).length ≤ n ∧
    List.Sorted tsGe (selInbox db (n : Int)) ∧
    (∀ r ∈ selInbox db (n : Int),
      r ∈ db ∧ r.from_number ≠ "" ∧ ∀ m ∈ db, sameThread m r → m.ts ≤ r.ts) ∧
    List.Pairwise (fun a b => ¬ sameThread a b) (selInbox db (n : Int)) := by
  have hn : (0 : Int) ≤ (n : Int) := Int.natCast_nonneg n
  have hto : ((n : Int)).toNat = n := Int.toNat_natCast n
  refine ⟨?_, ?_, ?_, ?_⟩
  · rw [← hto]; exact length_applyLimit_le hn _
  · exact List.Pairwise.sublist (applyLimit_sublist _ _)
      (List.sorted_insertionSort tsGe _)
  · intro r hr
    obtain ⟨hmem, hlatest⟩ := mem_selInbox hr
    obtain ⟨hne, hmax⟩ := isLatestInThread_spec hlatest
    exact ⟨hmem, hne, hmax⟩
  · -- on the filtered list, rows of one thread all attain the same maximum,
    -- so the no-tie hypothesis forbids two of them
    have hfilter : (db.filter (isLatestInThread db)).Pairwise
        fun a b => sameThread a b → a.ts ≠ b.ts := List.Pairwise.filter _ hnotie
    have hstep : (db.filter (isLatestInThread db)).Pairwise
        fun a b => ¬ sameThread a b := by
      refine List.Pairwise.imp_of_mem ?_ hfilter
      intro a b ha hb hab hsame
      have ha' := isLatestInThread_spec (List.mem_filter.mp ha).2
      have hb' := isLatestInThread_spec (List.mem_filter.mp hb).2
      have hle1 : a.ts ≤ b.ts :=
        hb'.2 a (List.mem_filter.mp ha).1 hsame
      have hle2 : b.ts ≤ a.ts :=
        ha'.2 b (List.mem_filter.mp hb).1 ⟨hsame.1.symm, hsame.2.symm⟩
      exact hab hsame (le_antisymm hle1 hle2)
    have hperm : (List.insertionSort tsGe (db.filter (isLatestInThread db))).Pairwise
        fun a b => ¬ sameThread a b :=
      (List.perm_insertionSort tsGe _).symm.pairwise hstep
        fun h hc => h ⟨hc.1.symm, hc.2.symm⟩
    exact List.Pairwise.sublist (applyLimit_sublist _ _) hperm

/-- Witness for C3: the spec's scenario — messages at `ts = 100` and
`ts = 200` for the same counterpart; the inbox holds exactly one row for the
pair, reflecting `ts = 200`, and the theorem's conclusions hold there. -/
theorem c3_inbox_witness :
    (let db : List Row := [⟨"A", "555@x", "555", 100, "in", "hello"⟩,
                           ⟨"A", "555@x", "555", 200, "in", "later"⟩]
     selInbox db ((10 : Nat) : Int) = [⟨"A", "555@x", "555", 200, "in", "later"⟩] ∧
     (selInbox db ((10 : Nat) : Int)).length ≤ 10 ∧
     List.Pairwise (fun a b => ¬ sameThread a b) (selInbox db ((10 : Nat) : Int))) := by
  refine ⟨by decide, ?_, ?_⟩
  · exact (c3_inbox_latest_per_thread _ 10 (by decide)).1
  · exact (c3_inbox_latest_per_thread _ 10 (by decide)).2.2.2

/-! Session lifecycle (`connection.update` handler of part_004,
lines 127-156, plus the session object installed by `startSlot`).

The handler is embedded as a step function on the per-slot session record; a
`connection.update` event carries the destructured `{ connection, qr,
lastDisconnect }` payload, with `lastDisconnect?.error?.output?.statusCode`
flattened to an `Option Nat`.  Observable effects are returned as actions:
`runBackfill` for the (awaited) `backfillAllChats` call and `scheduleRestart`
for `setTimeout(() => startSlot(slot), 1500)`.  The `open` branch mirrors the
source's `try { await backfillAllChats(slot); sessions[slot].isBackfilled =
true; } catch (e) { log.error(...) }`: whether the awaited call succeeds is
the environment's choice, carried on the event as `backfillOk`, and only a
successful run sets the flag — the `catch` leaves it false.  On a non-logout
close the returned session is the record `startSlot` installs when the
scheduled restart fires (`status: 'starting', isBackfilled: false`). -/

/-- Per-slot session record: `{ sock, store, qr, status, me, isBackfilled }`
minus the opaque socket/store handles. -/
structure Sess where
  status : String
  qr : Option String
  me : Option String
  isBackfilled : Bool
deriving DecidableEq

/-- A `connection.update` event payload, together with the environment's
outcome `backfillOk` for the `await backfillAllChats(slot)` call in case this
event launches one (`true`: the `try` body completes, `false`: it throws into
the `catch`); the field is irrelevant for events that launch nothing. -/
structure ConnEv where
  connection : Option String
  qr : Option String
  statusCode : Option Nat
  backfillOk : Bool
deriving DecidableEq

/-- Observable side effects of one handler invocation. -/
inductive Act where
  | runBackfill
  | scheduleRestart (delayMs : Nat)
deriving DecidableEq

/-- Constant `DisconnectReason.loggedOut` of Baileys. -/
def loggedOutCode : Nat := 401

/-- The retry delay of `setTimeout(() => startSlot(slot), 1500)`. -/
def restartDelayMs : Nat := 1500

/-- The session record installed by `startSlot`. -/
def startingSess : Sess :=
  { status := "starting", qr := none, me := none, isBackfilled := false }

/-- The `connection.update` handler of part_004. -/
def connUpdate (user : Option String) (s : Sess) (e : ConnEv) : Sess × List Act :=
  let s1 : Sess :=
    match e.qr with
    | some q => { s with qr := some q }
    | none => s
  match e.connection with
  | none => (s1, [])
  | some conn =>
    if conn = "open" then
      if s1.isBackfilled then
        ({ s1 with status := "connected", qr := none, me := user }, [])
      else if e.backfillOk then
        ({ s1 with status := "connected", qr := none, me := user, isBackfilled := true },
          [Act.runBackfill])
      else
        ({ s1 with status := "connected", qr := none, me := user }, [Act.runBackfill])
    else if conn = "close" then
      if e.statusCode ≠ some loggedOutCode then
        (startingSess, [Act.scheduleRestart restartDelayMs])
      else
        ({ s1 with status := "logged_out" }, [])
    else if conn ≠ "" then
      ({ s1 with status := conn }, [])
    else (s1, [])

/-- Whether an event is a `close` transition (ends the connection-cycle). -/
def isClose (e : ConnEv) : Bool := e.connection == some "close"

/-- One step of the event loop: apply the handler and append its actions. -/
def traceStep (user : Option String) (acc : Sess × List Act) (e : ConnEv) :
    Sess × List Act :=
  ((connUpdate user acc.1 e).1, acc.2 ++ (connUpdate user acc.1 e).2)

/-- Folding the handler over an event trace, accumulating emitted actions. -/
def runTrace (user : Option String) (s : Sess) (events : List ConnEv) :
    Sess × List Act :=
  events.foldl (traceStep user) (s, [])

theorem traceStep_foldl_acc (user : Option String) :
    ∀ (es : List ConnEv) (s' : Sess) (l : List Act),
      (es.foldl (traceStep user) (s', l)).2 =
        l ++ (es.foldl (traceStep user) (s', [])).2
  | [], _, _ => by simp
  | x :: xs, s', l => by
    rw [List.foldl_cons, List.foldl_cons]
    simp only [traceStep]
    rw [traceStep_foldl_acc user xs _ (l ++ (connUpdate user s' x).2),
      traceStep_foldl_acc user xs _ ([] ++ (connUpdate user s' x).2)]
    simp

theorem runTrace_cons_count (user : Option String) (s : Sess) (e : ConnEv)
    (es : List ConnEv) :
    (runTrace user s (e :: es)).2.count Act.runBackfill =
      (connUpdate user s e).2.count Act.runBackfill +
        (runTrace user (connUpdate user s e).1 es).2.count Act.runBackfill := by
  show ((e :: es).foldl (traceStep user) (s, [])).2.count Act.runBackfill = _
  rw [List.foldl_cons]
  show ((es.foldl (traceStep user) ((connUpdate user s e).1,
    [] ++ (connUpdate user s e).2)).2).count Act.runBackfill = _
  rw [traceStep_foldl_acc user es _ ([] ++ (connUpdate user s e).2)]
  simp [runTrace, List.count_append]

theorem connUpdate_backfill_potential (user : Option String) (s : Sess)
    (e : ConnEv) (h : isClose e = false) (hok : e.backfillOk = true) :
    (connUpdate user s e).2.count Act.runBackfill +
      (if (connUpdate user s e).1.isBackfilled then 0 else 1) ≤
    (if s.isBackfilled then 0 else 1) := by
  rcases e with ⟨conn, qr, code, bok⟩
  rw [isClose] at h
  have hbok : bok = true := hok
  subst hbok
  rcases conn with _ | c
  · cases qr <;> simp [connUpdate]
  · have hc : c ≠ "close" := by
      intro hcc; subst hcc; simp at h
    by_cases hopen : c = "open"
    · subst hopen
      cases qr <;> by_cases hb : s.isBackfilled <;> simp [connUpdate, hb]
    · by_cases hz : c = ""
      · subst hz
        cases qr <;> simp [connUpdate, hc]
      · cases qr <;> simp [connUpdate, hc, hopen, hz]

theorem connUpdate_done_no_run (user : Option String) (s : Sess)
    (e : ConnEv) (h : isClose e = false) (hs : s.isBackfilled = true) :
    (connUpdate user s e).1.isBackfilled = true ∧
    (connUpdate user s e).2.count Act.runBackfill = 0 := by
  rcases e with ⟨conn, qr, code, bok⟩
  rw [isClose] at h
  rcases conn with _ | c
  · cases qr <;> simp [connUpdate, hs]
  · have hc : c ≠ "close" := by
      intro hcc; subst hcc; simp at h
    by_cases hopen : c = "open"
    · subst hopen
      cases qr <;> simp [connUpdate, hs]
    · by_cases hz : c = ""
      · subst hz
        cases qr <;> simp [connUpdate, hc, hs]
      · cases qr <;> simp [connUpdate, hc, hopen, hz, hs]

theorem runTrace_backfill_le (user : Option String) :
    ∀ (events : List ConnEv) (s : Sess),
      (∀ e ∈ events, isClose e = false) →
      (∀ e ∈ events, e.backfillOk = true) →
      (runTrace user s events).2.count Act.runBackfill ≤
        (if s.isBackfilled then 0 else 1)
  | [], s, _, _ => by simp [runTrace]
  | e :: es, s, h, hok => by
    have hstep := connUpdate_backfill_potential user s e (h e (by simp))
      (hok e (by simp))
    have hrest := runTrace_backfill_le user es (connUpdate user s e).1
      (fun x hx => h x (by simp [hx])) (fun x hx => hok x (by simp [hx]))
    rw [runTrace_cons_count]
    omega

theorem runTrace_done_no_run (user : Option String) :
    ∀ (events : List ConnEv) (s : Sess),
      (∀ e ∈ events, isClose e = false) → s.isBackfilled = true →
      (runTrace user s events).2.count Act.runBackfill = 0
  | [], s, _, _ => by simp [runTrace]
  | e :: es, s, h, hs => by
    have hstep := connUpdate_done_no_run user s e (h e (by simp)) hs
    have hrest := runTrace_done_no_run user es (connUpdate user s e).1
      (fun x hx => h x (by simp [hx])) hstep.1
    rw [runTrace_cons_count]
    omega

/-- C4 counterexample: part_004 sets `isBackfilled` only after `await
backfillAllChats(slot)` *succeeds*, and the `catch` leaves it false — so on
the close-free trace where a first `open` launches a backfill that fails and
a second `open` arrives, the handler launches a second backfill inside the
same connection-cycle: two `runBackfill` launches, refuting the
unconditional at-most-once-per-cycle reading of the guard. -/
theorem c4_backfill_counterexample :
    (∀ e ∈ [(⟨some "open", none, none, false⟩ : ConnEv),
            ⟨some "open", none, none, true⟩], isClose e = false) ∧
    (runTrace (some "u@s") startingSess
      [⟨some "open", none, none, false⟩,
       ⟨some "open", none, none, true⟩]).2.count Act.runBackfill = 2 := by
  constructor
  · decide
  · decide

/-- C4 (amended): the `isBackfilled` guard enforces at most one *successful*
backfill run per connection-cycle: over a close-free event trace whose
launched backfills all succeed, at most one launch occurs; once the flag is
set, no further backfill is launched for the rest of the cycle whatever the
later outcomes; a failed run leaves the flag unset, so a later `open` in the
same cycle launches again (see the counterexample); and a later reconnect
re-arms the guard — a non-logout `close` installs a session with
`isBackfilled = false` whose next successful `open` launches exactly one
backfill. -/
theorem c4_backfill_once_successful_per_cycle (user : Option String)
    (events : List ConnEv) (h : ∀ e ∈ events, isClose e = false) :
    ((∀ e ∈ events, e.backfillOk = true) →
      (runTrace user startingSess events).2.count Act.runBackfill ≤ 1) ∧
    (∀ s : Sess, s.isBackfilled = true →
      (runTrace user s events).2.count Act.runBackfill = 0) ∧
    (∀ (s : Sess) (qr : Option String) (c : Option Nat) (b : Bool),
      c ≠ some loggedOutCode →
      (connUpdate user s ⟨some "close", qr, c, b⟩).1.isBackfilled = false ∧
      (connUpdate user (connUpdate user s ⟨some "close", qr, c, b⟩).1
        ⟨some "open", none, none, true⟩).2 = [Act.runBackfill]) := by
  refine ⟨fun hok => ?_, fun s hs => ?_, fun s qr c b hc => ?_⟩
  · have := runTrace_backfill_le user events startingSess h hok
    simpa [startingSess] using this
  · exact runTrace_done_no_run user events s h hs
  · constructor
    · simp [connUpdate, hc, startingSess]
    · simp [connUpdate, hc, startingSess]

/-- Witness for C4 (amended): a close-free all-successful trace
(`connecting`, then `open` twice) yields at most one launch; from a session
whose flag is set, an `open` launches nothing; and a non-logout close (code
428) re-arms the guard. -/
theorem c4_backfill_once_witness :
    ((runTrace (some "u@s") startingSess
        [⟨some "connecting", none, none, true⟩, ⟨some "open", none, none, true⟩,
         ⟨some "open", none, none, true⟩]).2.count Act.runBackfill ≤ 1 ∧
      (runTrace (some "u@s") (⟨"connected", none, some "u@s", true⟩ : Sess)
        [⟨some "open", none, none, true⟩]).2.count Act.runBackfill = 0 ∧
      (connUpdate (some "u@s") startingSess
        ⟨some "close", none, some 428, true⟩).1.isBackfilled = false ∧
      (connUpdate (some "u@s")
        (connUpdate (some "u@s") startingSess
          ⟨some "close", none, some 428, true⟩).1
        ⟨some "open", none, none, true⟩).2 = [Act.runBackfill]) := by
  have h := c4_backfill_once_successful_per_cycle (some "u@s")
    [⟨some "connecting", none, none, true⟩, ⟨some "open", none, none, true⟩,
     ⟨some "open", none, none, true⟩] (by decide)
  have h2 := c4_backfill_once_successful_per_cycle (some "u@s")
    [⟨some "open", none, none, true⟩] (by decide)
  exact ⟨h.1 (by decide),
    h2.2.1 (⟨"connected", none, some "u@s", true⟩ : Sess) rfl,
    (h.2.2 startingSess none (some 428) true (by decide)).1,
    (h.2.2 startingSess none (some 428) true (by decide)).2⟩

/-- C6: on a `close` event, an explicit-logout disconnect reason
(`DisconnectReason.loggedOut` = 401) moves the session to the terminal
`logged_out` status with no action emitted, while every other reason moves it
back to `starting` and schedules `startSlot` (which re-invokes `connect`)
after a positive 1500 ms delay; moreover a restart is *only* ever emitted by
a non-logout `close`, so the handler never re-invokes `connect` after a
logout. -/
theorem c6_close_logout_vs_retry (user : Option String) (s : Sess)
    (qr : Option String) (c : Option Nat) (b : Bool) :
    (c = some loggedOutCode →
      (connUpdate user s ⟨some "close", qr, c, b⟩).1.status = "logged_out" ∧
      (connUpdate user s ⟨some "close", qr, c, b⟩).2 = []) ∧
    (c ≠ some loggedOutCode →
      (connUpdate user s ⟨some "close", qr, c, b⟩).1.status = "starting" ∧
      (connUpdate user s ⟨some "close", qr, c, b⟩).2 =
        [Act.scheduleRestart restartDelayMs] ∧
      0 < restartDelayMs) ∧
    (∀ (e : ConnEv) (d : Nat),
      Act.scheduleRestart d ∈ (connUpdate user s e).2 →
      e.connection = some "close" ∧ e.statusCode ≠ some loggedOutCode) := by
  refine ⟨fun hc => ?_, fun hc => ?_, fun e d hmem => ?_⟩
  · subst hc
    cases qr <;> simp [connUpdate]
  · refine ⟨?_, ?_, by decide⟩ <;> cases qr <;> simp [connUpdate, hc, startingSess]
  · rcases e with ⟨conn, eqr, code, bok⟩
    rcases conn with _ | cv
    · cases eqr <;> simp [connUpdate] at hmem
    · by_cases hopen : cv = "open"
      · subst hopen
        cases eqr <;> cases bok <;> by_cases hb : s.isBackfilled <;>
          simp [connUpdate, hb] at hmem
      · by_cases hclose : cv = "close"
        · subst hclose
          by_cases hcode : code = some loggedOutCode
          · cases eqr <;> simp [connUpdate, hcode] at hmem
          · exact ⟨rfl, hcode⟩
        · by_cases hz : cv = "" <;>
            cases eqr <;> simp [connUpdate, hopen, hclose, hz] at hmem

/-- Witness for C6: at a concrete session, closing with code 401
(`loggedOut`) reaches `logged_out` with no restart, while closing with code
428 goes back to `starting` with the delayed restart. -/
theorem c6_close_witness :
    ((connUpdate (some "u@s") startingSess
        ⟨some "close", none, some 401, true⟩).1.status = "logged_out" ∧
      (connUpdate (some "u@s") startingSess
        ⟨some "close", none, some 401, true⟩).2 = []) ∧
    ((connUpdate (some "u@s") startingSess
        ⟨some "close", none, some 428, true⟩).1.status = "starting" ∧
      (connUpdate (some "u@s") startingSess
        ⟨some "close", none, some 428, true⟩).2 =
        [Act.scheduleRestart restartDelayMs] ∧
      0 < restartDelayMs) := by
  refine ⟨?_, ?_⟩
  · exact (c6_close_logout_vs_retry (some "u@s") startingSess none (some 401)
      true).1 (by decide)
  · exact (c6_close_logout_vs_retry (some "u@s") startingSess none (some 428)
      true).2.1 (by decide)

/-! Backfill scheduler of part_001 (`backfillAll`, lines 178-201)

`backfillAll` keeps two counters, `idx` (next queued conversation) and
`active` (conversations — hence `drainChat` page-fetch loops — in flight).
`stepOrNext` starts new `step`s while `active < MAX_CONCURRENT && idx <
jids.length`, and every finishing `step` decrements `active` and calls
`stepOrNext` again.  The embedding runs the admission loop to its fixed point
(`admitLoop`) and models the nondeterministic completion of one in-flight
conversation as `finishStep`; a schedule is then "start, then `m`
completions". -/

/-- Scheduler counters of `backfillAll`: `idx` and `active`. -/
structure SchedState where
  idx : Nat
  active : Nat
deriving DecidableEq

/-- Body of the `stepOrNext` admission loop, with an explicit fuel bound
(each pass increments `idx`, so `n - idx` passes always suffice). -/
def admitGo (K n : Nat) : Nat → SchedState → SchedState
  | 0, s => s
  | f + 1, s =>
    if s.active < K ∧ s.idx < n then admitGo K n f ⟨s.idx + 1, s.active + 1⟩ else s

/-- The `stepOrNext` admission loop: `while (active < MAX_CONCURRENT && idx <
jids.length) step()`, where starting a `step` increments both counters. -/
def admitLoop (K n : Nat) (s : SchedState) : SchedState :=
  admitGo K n (n - s.idx) s

/-- Scheduler state right after `backfillAll` first calls `stepOrNext`. -/
def schedInit (K n : Nat) : SchedState := admitLoop K n ⟨0, 0⟩

/-- One conversation finishes: `active--; stepOrNext()`. -/
def finishStep (K n : Nat) (s : SchedState) : SchedState :=
  admitLoop K n ⟨s.idx, s.active - 1⟩

/-- The scheduler state after the initial admission and `m` completions. -/
def schedRun (K n m : Nat) : SchedState :=
  (finishStep K n)^[m] (schedInit K n)

theorem admitGo_active_le (K n : Nat) :
    ∀ (f : Nat) (s : SchedState), s.active ≤ K → (admitGo K n f s).active ≤ K
  | 0, _, hs => hs
  | f + 1, s, _ => by
    rw [admitGo]
    split
    · next h => exact admitGo_active_le K n f _ (by simpa using h.1)
    · next h => omega

theorem admitGo_saturates (K n : Nat) :
    ∀ (f : Nat) (s : SchedState), n - s.idx ≤ f →
      K ≤ (admitGo K n f s).active ∨ n ≤ (admitGo K n f s).idx
  | 0, s, hf => by
    rw [admitGo]
    omega
  | f + 1, s, hf => by
    rw [admitGo]
    split
    · next h => exact admitGo_saturates K n f _ (by simp; omega)
    · next h => omega

theorem admitLoop_active_le (K n : Nat) (s : SchedState) (hs : s.active ≤ K) :
    (admitLoop K n s).active ≤ K :=
  admitGo_active_le K n _ s hs

theorem admitLoop_saturates (K n : Nat) (s : SchedState) :
    K ≤ (admitLoop K n s).active ∨ n ≤ (admitLoop K n s).idx :=
  admitGo_saturates K n _ s (le_refl _)

theorem schedRun_active_le (K n : Nat) : ∀ m : Nat, (schedRun K n m).active ≤ K
  | 0 => admitLoop_active_le K n ⟨0, 0⟩ (Nat.zero_le K)
  | m + 1 => by
    rw [schedRun, Function.iterate_succ_apply']
    exact admitLoop_active_le K n _
      (le_trans (Nat.sub_le _ 1) (schedRun_active_le K n m))

/-- C5: in `backfillAll`'s scheduler, the number of conversations in flight —
an upper bound on outstanding history-page fetches, since each `drainChat`
issues its page fetches sequentially — never exceeds `MAX_CONCURRENT = K` at
any point of any completion schedule; and the scheduler never idles below the
cap while conversations are queued: after every admission pass either all `K`
lanes are busy or the queue is exhausted.  Concretely, with `K = 2` over 5
conversations the in-flight counts along the full schedule are
`[2, 2, 2, 2, 1, 0]` — never more than 2. -/
theorem c5_backfill_concurrency_cap (K n m : Nat) :
    (schedRun K n m).active ≤ K ∧
    (K ≤ (schedRun K n m).active ∨ n ≤ (schedRun K n m).idx) ∧
    ((List.range 6).map fun i => (schedRun 2 5 i).active) = [2, 2, 2, 2, 1, 0] := by
  refine ⟨schedRun_active_le K n m, ?_, by decide⟩
  cases m with
  | zero => exact admitLoop_saturates K n ⟨0, 0⟩
  | succ m =>
    rw [schedRun, Function.iterate_succ_apply']
    exact admitLoop_saturates K n _

/-! Backfill page loop (`backfillChat` / `backfillAllChats` of part_004,
lines 210-267)

The duck-typed `load.call(sock, jid, batchSize, cursor)` history-page fetch is
modelled as an oracle `fetch : Option Cursor → Except String (List RawMsg)`;
a thrown exception is `Except.error`.  `Array.isArray(page) ? page :
(page?.messages || [])` is folded into the oracle returning the message list
directly. -/

/-- A Baileys message key (`m.key`). -/
structure MsgKey where
  remoteJid : Option String
  participant : Option String
  id : Option String
  fromMe : Bool
deriving DecidableEq

/-- The fields of `m.message` inspected by `txtOf` (part_004 lines 78-91). -/
structure MsgNode where
  conversation : Option String
  extendedText : Option String
  imageCaption : Option String
  videoCaption : Option String
  buttonsSelectedDisplayText : Option String
  templateSelectedDisplayText : Option String
  listTitle : Option String
  reactionText : Option String
deriving DecidableEq

/-- A raw Baileys message as consumed by the ingestion paths. -/
structure RawMsg where
  key : MsgKey
  messageTimestamp : Option Int
  timestamp : Option Int
  message : MsgNode
deriving DecidableEq

/-- Helper `toTel`: `(jid || '').replace(/@.*/, '')` — everything before the first
`@`. -/
def toTel (jid : String) : String :=
  String.mk (jid.data.takeWhile fun ch => ch ≠ '@')

/-- Helper `txtOf`: the `??`-chain over the message node, with the final fallback
string. -/
def txtOf (m : MsgNode) : String :=
  (m.conversation <|> m.extendedText <|> m.imageCaption <|> m.videoCaption <|>
    m.buttonsSelectedDisplayText <|> m.templateSelectedDisplayText <|>
    m.listTitle <|> m.reactionText).getD "[mensaje no soportado]"

/-- Timestamp `(m.messageTimestamp || m.timestamp || Math.floor(Date.now()/1000)) *
1000` — JS `||` treats 0 as falsy; `now` stands for the ingestion-time
fallback. -/
def tsOfRaw (now : Int) (m : RawMsg) : Int :=
  (if m.messageTimestamp.getD 0 ≠ 0 then m.messageTimestamp.getD 0
   else if m.timestamp.getD 0 ≠ 0 then m.timestamp.getD 0
   else now) * 1000

/-- The row built from a raw message in `backfillChat` (and the
`messaging-history.set` / `messages.upsert` handlers) of part_004: skipped
when `remoteJid` is missing (`if (!remoteJid) continue`) or when no
counterpart is derivable (`if (!row.from_number) continue`). -/
def rowOfRaw (slot : String) (now : Int) (m : RawMsg) : Option Row :=
  match m.key.remoteJid with
  | none => none
  | some rj =>
    let f := if toTel rj ≠ "" then toTel rj else toTel (m.key.participant.getD "")
    if f = "" then none
    else some
      { slot := slot, jid := rj, from_number := f, ts := tsOfRaw now m,
        type := if m.key.fromMe then "out" else "in", text := txtOf m.message }

/-- Ingest one fetched page: `for (const m of msgs) { ...; insMsg.run(row) }`. -/
def ingestBatch (slot : String) (now : Int) (db : List Row)
    (msgs : List RawMsg) : List Row :=
  msgs.foldl (fun acc m =>
    match rowOfRaw slot now m with
    | none => acc
    | some r => insMsg acc r) db

/-- Why `backfillChat`'s page loop stopped. -/
inductive StopReason where
  | batchCap
  | emptyPage
  | noCursorId
  | shortPage
  | fetchError (e : String)
deriving DecidableEq

/-- The `before`-cursor `{ id, fromMe, remoteJid }` built from the last
message of a page. -/
structure Cursor where
  id : String
  fromMe : Bool
  remoteJid : String
deriving DecidableEq

/-- The page loop of `backfillChat(slot, jid, maxBatches = 200, batchSize =
50)`, instrumented with the stop reason and the number of `load` calls made.
Loop body, in source order: fetch a page (a throw aborts the whole call);
`if (!msgs.length) break`; ingest every message; `if (!last?.key?.id) break`;
advance the cursor; `if (msgs.length < batchSize) break`. -/
def backfillLoop (fetch : Option Cursor → Except String (List RawMsg))
    (slot jid : String) (now : Int) (batchSize : Nat) :
    Nat → List Row → Option Cursor → List Row × StopReason × Nat
  | 0, db, _ => (db, StopReason.batchCap, 0)
  | fuel + 1, db, cursor =>
    match fetch cursor with
    | Except.error e => (db, StopReason.fetchError e, 1)
    | Except.ok msgs =>
      if msgs.isEmpty then (db, StopReason.emptyPage, 1)
      else
        let db2 := ingestBatch slot now db msgs
        match msgs.getLast? with
        | none => (db2, StopReason.noCursorId, 1)
        | some last =>
          match last.key.id with
          | none => (db2, StopReason.noCursorId, 1)
          | some kid =>
            if msgs.length < batchSize then (db2, StopReason.shortPage, 1)
            else
              let r := backfillLoop fetch slot jid now batchSize fuel db2
                (some ⟨kid, last.key.fromMe, jid⟩)
              (r.1, r.2.1, r.2.2 + 1)

/-- Call `backfillChat slot jid` with the source defaults `maxBatches = 200`,
`batchSize = 50` and a `null` initial cursor. -/
def backfillChat (fetch : Option Cursor → Except String (List RawMsg))
    (slot jid : String) (now : Int) (maxBatches batchSize : Nat)
    (db : List Row) : List Row × StopReason × Nat :=
  backfillLoop fetch slot jid now batchSize maxBatches db none

/-- Loop `backfillAllChats`: iterate the slot's chats sequentially, each inside
`try { await backfillChat(slot, c.id) } catch (e) { log.warn(...) }`, so one
conversation's failure never stops the loop.  Returns the final store and the
per-conversation stop reasons. -/
def backfillAllChats (fetchF : String → Option Cursor → Except String (List RawMsg))
    (slot : String) (now : Int) (maxBatches batchSize : Nat) :
    List Row → List String → List Row × List StopReason
  | db, [] => (db, [])
  | db, c :: cs =>
    let r := backfillChat (fetchF c) slot c now maxBatches batchSize db
    let rest := backfillAllChats fetchF slot now maxBatches batchSize r.1 cs
    (rest.1, r.2.1 :: rest.2)

theorem backfillLoop_error_immediate (fetch : Option Cursor → Except String (List RawMsg))
    (slot jid : String) (now : Int) (batchSize fuel : Nat) (db : List Row)
    (cursor : Option Cursor) (e : String) (hf : fetch cursor = Except.error e) :
    backfillLoop fetch slot jid now batchSize (fuel + 1) db cursor =
      (db, StopReason.fetchError e, 1) := by
  rw [backfillLoop, hf]

theorem backfillLoop_fetch_count_le (fetch : Option Cursor → Except String (List RawMsg))
    (slot jid : String) (now : Int) (batchSize : Nat) :
    ∀ (fuel : Nat) (db : List Row) (cursor : Option Cursor),
      (backfillLoop fetch slot jid now batchSize fuel db cursor).2.2 ≤ fuel
  | 0, db, cursor => by rw [backfillLoop]
  | fuel + 1, db, cursor => by
    rw [backfillLoop]
    rcases hf : fetch cursor with e | msgs
    · simp
    · by_cases hempty : msgs.isEmpty
      · simp [hempty]
      · simp only [hempty, if_false, Bool.false_eq_true]
        rcases hlast : msgs.getLast? with _ | last
        · simp
        · dsimp only
          rcases hid : last.key.id with _ | kid
          · simp
          · dsimp only
            by_cases hshort : msgs.length < batchSize
            · simp [hshort]
            · simp only [hshort, if_false]
              have := backfillLoop_fetch_count_le fetch slot jid now batchSize
                fuel (ingestBatch slot now db msgs) (some ⟨kid, last.key.fromMe, jid⟩)
              omega

theorem backfillChat_error_unchanged
    (fetch : Option Cursor → Except String (List RawMsg)) (slot jid : String)
    (now : Int) (maxBatches batchSize : Nat) (db : List Row) (e : String)
    (hf : ∀ cur, fetch cur = Except.error e) :
    (backfillChat fetch slot jid now maxBatches batchSize db).1 = db := by
  rw [backfillChat]
  cases maxBatches with
  | zero => rw [backfillLoop]
  | succ f => rw [backfillLoop_error_immediate fetch slot jid now batchSize f db none e (hf none)]

theorem backfillAllChats_reasons_length
    (fetchF : String → Option Cursor → Except String (List RawMsg))
    (slot : String) (now : Int) (maxBatches batchSize : Nat) :
    ∀ (chats : List String) (db : List Row),
      (backfillAllChats fetchF slot now maxBatches batchSize db chats).2.length =
        chats.length
  | [], _ => rfl
  | c :: cs, db => by
    rw [backfillAllChats]
    have := backfillAllChats_reasons_length fetchF slot now maxBatches batchSize cs
      (backfillChat (fetchF c) slot c now maxBatches batchSize db).1
    simp [this]

theorem backfillAllChats_isolation
    (fetchF : String → Option Cursor → Except String (List RawMsg))
    (slot : String) (now : Int) (maxBatches batchSize : Nat) (bad : String)
    (e : String) (hbad : ∀ cur, fetchF bad cur = Except.error e) :
    ∀ (pre post : List String) (db : List Row),
      (backfillAllChats fetchF slot now maxBatches batchSize db
        (pre ++ bad :: post)).1 =
      (backfillAllChats fetchF slot now maxBatches batchSize db (pre ++ post)).1
  | [], post, db => by
    rw [List.nil_append, List.nil_append, backfillAllChats]
    have hun := backfillChat_error_unchanged (fetchF bad) slot bad now
      maxBatches batchSize db e hbad
    dsimp only
    rw [hun]
  | p :: pre, post, db => by
    rw [List.cons_append, List.cons_append, backfillAllChats, backfillAllChats]
    dsimp only
    exact backfillAllChats_isolation fetchF slot now maxBatches batchSize bad e
      hbad pre post _

/-- C7: (i) a failing page fetch aborts that conversation immediately — the
loop returns after the single failed call, with the store untouched by it,
and is not retried; (ii) `backfillAllChats` still processes every other
conversation, producing exactly the store it would produce had the failing
conversation not been listed, and records one outcome per conversation;
(iii) the page loop stops on an empty page (exhausted cursor) and on a page
shorter than `batchSize` without a further fetch, and never makes more than
`maxBatches` fetches for one conversation (the hard per-conversation cap). -/
theorem c7_backfill_failure_isolation_and_stops
    (slot jid : String) (now : Int) (batchSize maxBatches fuel : Nat)
    (db : List Row) (cursor : Option Cursor) :
    (∀ (fetch : Option Cursor → Except String (List RawMsg)) (e : String),
      fetch cursor = Except.error e →
      backfillLoop fetch slot jid now batchSize (fuel + 1) db cursor =
        (db, StopReason.fetchError e, 1)) ∧
    (∀ (fetchF : String → Option Cursor → Except String (List RawMsg))
       (bad e : String) (pre post : List String),
      (∀ cur, fetchF bad cur = Except.error e) →
      (backfillAllChats fetchF slot now maxBatches batchSize db
          (pre ++ bad :: post)).1 =
        (backfillAllChats fetchF slot now maxBatches batchSize db
          (pre ++ post)).1 ∧
      (backfillAllChats fetchF slot now maxBatches batchSize db
          (pre ++ bad :: post)).2.length = (pre ++ bad :: post).length) ∧
    (∀ (fetch : Option Cursor → Except String (List RawMsg)),
      fetch cursor = Except.ok [] →
      backfillLoop fetch slot jid now batchSize (fuel + 1) db cursor =
        (db, StopReason.emptyPage, 1)) ∧
    (∀ (fetch : Option Cursor → Except String (List RawMsg)) (msgs : List RawMsg)
       (last : RawMsg) (kid : String),
      fetch cursor = Except.ok msgs → msgs ≠ [] → msgs.getLast? = some last →
      last.key.id = some kid → msgs.length < batchSize →
      backfillLoop fetch slot jid now batchSize (fuel + 1) db cursor =
        (ingestBatch slot now db msgs, StopReason.shortPage, 1)) ∧
    (∀ (fetch : Option Cursor → Except String (List RawMsg)),
      (backfillLoop fetch slot jid now batchSize fuel db cursor).2.2 ≤ fuel) := by
  refine ⟨?_, ?_, ?_, ?_, ?_⟩
  · intro fetch e hf
    exact backfillLoop_error_immediate fetch slot jid now batchSize fuel db cursor e hf
  · intro fetchF bad e pre post hbad
    exact ⟨backfillAllChats_isolation fetchF slot now maxBatches batchSize bad e
        hbad pre post db,
      backfillAllChats_reasons_length fetchF slot now maxBatches batchSize _ db⟩
  · intro fetch hf
    rw [backfillLoop, hf]
    simp
  · intro fetch msgs last kid hf hne hlast hid hshort
    rw [backfillLoop, hf]
    try dsimp only
    rw [if_neg (by simpa [List.isEmpty_iff] using hne)]
    try dsimp only
    rw [hlast]
    try dsimp only
    rw [hid]
    try dsimp only
    rw [if_pos hshort]
  · intro fetch
    exact backfillLoop_fetch_count_le fetch slot jid now batchSize fuel db cursor

/-- Witness for C7: with a two-conversation slot where conversation `"bad@g"`
always throws and `"5551@s"` serves one short page, the failing conversation
is abandoned after one call, the other conversation's message is stored, and
both outcomes are recorded. -/
theorem c7_backfill_failure_witness :
    (let m : RawMsg := ⟨⟨some "5551@s", none, some "K1", false⟩, some 7, none,
      ⟨some "hola", none, none, none, none, none, none, none⟩⟩
     let fetchF : String → Option Cursor → Except String (List RawMsg) :=
       fun c _ => if c = "bad@g" then Except.error "boom" else Except.ok [m]
     backfillLoop (fetchF "bad@g") "A" "bad@g" 0 50 200 [] none =
       ([], StopReason.fetchError "boom", 1) ∧
     (backfillAllChats fetchF "A" 0 200 50 [] ["bad@g", "5551@s"]).1 =
       (backfillAllChats fetchF "A" 0 200 50 [] ["5551@s"]).1 ∧
     (backfillAllChats fetchF "A" 0 200 50 [] ["bad@g", "5551@s"]).2.length = 2 ∧
     (backfillAllChats fetchF "A" 0 200 50 [] ["bad@g", "5551@s"]).1 =
       [⟨"A", "5551@s", "5551", 7000, "in", "hola"⟩]) := by
  refine ⟨?_, ?_, ?_, by decide⟩
  · exact (c7_backfill_failure_isolation_and_stops "A" "bad@g" 0 50 200 199 []
      none).1 _ "boom" rfl
  · exact ((c7_backfill_failure_isolation_and_stops "A" "x" 0 50 200 0 []
      none).2.1 _ "bad@g" "boom" [] ["5551@s"] (fun _ => rfl)).1
  · exact ((c7_backfill_failure_isolation_and_stops "A" "x" 0 50 200 0 []
      none).2.1 _ "bad@g" "boom" [] ["5551@s"] (fun _ => rfl)).2

/-! HTTP read handlers (`GET /history` of part_004 lines 334-340, and
`GET /chats` of part_001 lines 300-307)

Query parameters arrive as `Option` values (`none` = absent).  JS truthiness
on a string parameter (`!slot`) is false for both a missing and an empty
value; a numeric parameter is modelled as `Option Int` (already-parsed
`Number(...)`; the `NaN` produced by a non-numeric string is outside the
model). -/

/-- JS truthiness of an optional string query parameter. -/
def jsTruthyStr (o : Option String) : Bool :=
  match o with
  | none => false
  | some s => s ≠ ""

/-- Handler `GET /history` of part_004: `if (!slot || !from) return 400`; otherwise
`selHistoryAsc.all(slot, from, b, b, Math.min(Number(limit), 1000))` with
`limit = 200` as destructuring default.  The store is returned alongside the
response to record that the handler never writes. -/
def histHandler (db : List Row) (slotQ fromQ : Option String)
    (beforeQ limitQ : Option Int) : List Row × Except String (List Row) :=
  if !jsTruthyStr slotQ || !jsTruthyStr fromQ then
    (db, Except.error "slot y from requeridos")
  else
    (db, Except.ok (selHistoryAsc db (slotQ.getD "") (fromQ.getD "") beforeQ
      (min (limitQ.getD 200) 1000)))

/-- The rows carried by a handler response (an error response carries none). -/
def rowsOf (r : Except String (List Row)) : List Row :=
  match r with
  | Except.ok l => l
  | Except.error _ => []

/-- Clamp `Math.min(Number(req.query.limit) || 2000, 5000)` of part_001's
`GET /chats`: `||` replaces a missing (NaN) or zero parse by 2000. -/
def chatsLimit (limitQ : Option Int) : Int :=
  min (if limitQ.getD 0 ≠ 0 then limitQ.getD 0 else 2000) 5000

/-- Handler `GET /chats` of part_001: `selInbox.all(limit)`. -/
def chatsHandler (db : List Row) (limitQ : Option Int) : List Row :=
  selInbox db (chatsLimit limitQ)

/-- C8: the history endpoint rejects a missing (or empty) `slot` or `from`
with the 400 `ValidationError` response, returning no rows and leaving the
store untouched; with both present it delegates unchanged to
`selHistoryAsc` with the clamped limit. -/
theorem c8_history_validation (db : List Row) (slotQ fromQ : Option String)
    (beforeQ limitQ : Option Int) :
    ((jsTruthyStr slotQ = false ∨ jsTruthyStr fromQ = false) →
      histHandler db slotQ fromQ beforeQ limitQ =
        (db, Except.error "slot y from requeridos") ∧
      rowsOf (histHandler db slotQ fromQ beforeQ limitQ).2 = [] ∧
      (histHandler db slotQ fromQ beforeQ limitQ).1 = db) ∧
    (jsTruthyStr slotQ = true → jsTruthyStr fromQ = true →
      histHandler db slotQ fromQ beforeQ limitQ =
        (db, Except.ok (selHistoryAsc db (slotQ.getD "") (fromQ.getD "")
          beforeQ (min (limitQ.getD 200) 1000))) ∧
      (histHandler db slotQ fromQ beforeQ limitQ).1 = db) := by
  constructor
  · intro h
    have hcond : (!jsTruthyStr slotQ || !jsTruthyStr fromQ) = true := by
      rcases h with h | h <;> simp [h]
    rw [histHandler, if_pos hcond]
    exact ⟨rfl, rfl, rfl⟩
  · intro hs hf
    have hcond : (!jsTruthyStr slotQ || !jsTruthyStr fromQ) = false := by
      simp [hs, hf]
    rw [histHandler, if_neg (by simp [hcond])]
    exact ⟨rfl, rfl⟩

/-- Witness for C8: a missing `from` is rejected with no rows, and a complete
request delegates to `selHistoryAsc`. -/
theorem c8_history_validation_witness :
    (let db : List Row := [⟨"A", "5@x", "5", 1, "in", "t"⟩]
     histHandler db (some "A") none none none =
        (db, Except.error "slot y from requeridos") ∧
     rowsOf (histHandler db (some "A") none none none).2 = [] ∧
     histHandler db (some "A") (some "5") none none =
        (db, Except.ok (selHistoryAsc db "A" "5" none (min 200 1000)))) := by
  refine ⟨?_, ?_, ?_⟩
  · exact ((c8_history_validation _ (some "A") none none none).1
      (Or.inr rfl)).1
  · exact ((c8_history_validation _ (some "A") none none none).1
      (Or.inr rfl)).2.1
  · exact ((c8_history_validation _ (some "A") (some "5") none none).2
      (by decide) (by decide)).1

/-- A store with 1001 rows of one conversation, timestamps `0..1000`. -/
def db1001 : List Row :=
  (List.range 1001).map fun (i : Nat) => ⟨"A", "5@x", "5", Int.ofNat i, "in", "t"⟩

theorem length_insertionSort (r : Row → Row → Prop) [DecidableRel r]
    (l : List Row) : (List.insertionSort r l).length = l.length :=
  (List.perm_insertionSort r l).length_eq

/-- C9 counterexample: a requested limit of `-1` passes `Math.min(-1, 1000) =
-1` straight to SQLite, where a negative `LIMIT` means *no* limit — the
history endpoint returns all 1001 matching rows, exceeding the 1000-row
ceiling the claim promises for *every* client-supplied limit. -/
theorem c9_counterexample :
    1000 <
      (rowsOf (histHandler db1001 (some "A") (some "5") none (some (-1))).2).length := by
  rw [histHandler, if_neg (by decide)]
  dsimp only [rowsOf]
  have hmin : min (((some (-1) : Option Int)).getD 200) 1000 = -1 := by decide
  rw [hmin]
  rw [selHistoryAsc, applyLimit, if_pos (by decide)]
  rw [length_insertionSort]
  rw [Option.getD_some, Option.getD_some]
  have hall : db1001.filter (histPred "A" "5" none) = db1001 := by
    apply List.filter_eq_self.mpr
    intro m hm
    rw [db1001] at hm
    obtain ⟨i, _, rfl⟩ := List.mem_map.mp hm
    rfl
  rw [hall]
  have hlen : db1001.length = 1001 := by simp [db1001]
  omega

/-- C9 (amended): for an absent or non-negative requested limit, each read
query's row count is clamped to its hard ceiling — 1000 for `/history`
(part_004), 5000 for `/chats` (part_001) — but a negative requested limit
disables the SQL `LIMIT` clause entirely and may return more rows than the
ceiling (see the counterexample). -/
theorem c9_limits_clamped_for_nonneg (db : List Row) (slotQ fromQ : Option String)
    (beforeQ : Option Int) (limitQ : Option Int)
    (h : ∀ v, limitQ = some v → 0 ≤ v) :
    (rowsOf (histHandler db slotQ fromQ beforeQ limitQ).2).length ≤ 1000 ∧
    (chatsHandler db limitQ).length ≤ 5000 := by
  have hlim : ∀ (k ceil : Int), 0 ≤ k → k ≤ ceil → 0 ≤ ceil →
      ∀ l : List Row, (applyLimit k l).length ≤ ceil.toNat := by
    intro k ceil hk hkc hc l
    exact le_trans (length_applyLimit_le hk l) (by omega)
  constructor
  · by_cases hcond : (!jsTruthyStr slotQ || !jsTruthyStr fromQ) = true
    · rw [histHandler, if_pos hcond]
      simp [rowsOf]
    · rw [histHandler, if_neg hcond]
      rw [rowsOf]
      have h0 : (0 : Int) ≤ min (limitQ.getD 200) 1000 := by
        rcases limitQ with _ | v
        · decide
        · have := h v rfl
          simp only [Option.getD]
          omega
      have h1 : min (limitQ.getD 200) 1000 ≤ 1000 := min_le_right _ _
      rw [selHistoryAsc]
      have := hlim _ 1000 h0 h1 (by decide)
        (List.insertionSort tsLe (db.filter (histPred (slotQ.getD "") (fromQ.getD "") beforeQ)))
      simpa using this
  · rw [chatsHandler, selInbox]
    have h0 : (0 : Int) ≤ chatsLimit limitQ := by
      rw [chatsLimit]
      rcases limitQ with _ | v
      · decide
      · have := h v rfl
        simp only [Option.getD]
        split <;> omega
    have h1 : chatsLimit limitQ ≤ 5000 := min_le_right _ _
    have := hlim _ 5000 h0 h1 (by decide)
      (List.insertionSort tsGe (db.filter (isLatestInThread db)))
    simpa using this

/-- Witness for C9 (amended): concrete non-negative limits — `7` for history,
absent for chats — stay within the ceilings. -/
theorem c9_limits_clamped_witness :
    (let db : List Row := [⟨"A", "5@x", "5", 1, "in", "t"⟩]
     (rowsOf (histHandler db (some "A") (some "5") none (some 7)).2).length ≤ 1000 ∧
     (chatsHandler db none).length ≤ 5000) := by
  refine ⟨?_, ?_⟩
  · exact (c9_limits_clamped_for_nonneg _ (some "A") (some "5") none (some 7)
      (fun v hv => by simp at hv; omega)).1
  · exact (c9_limits_clamped_for_nonneg _ (some "A") (some "5") none none
      (fun v hv => by simp at hv)).2

/-! Stats endpoint `GET /stats` (part_003 lines 277-299 = part_000 lines 179-203)

`SELECT slot, COUNT(*) AS messages, COUNT(DISTINCT from_number) AS
unique_clients FROM messages WHERE ts BETWEEN ? AND ? AND (?='all' OR
slot=?) GROUP BY slot`, then `rows.reduce` summing both columns into
`totals`.  The handler's `start`/`end` wall-clock window computation is kept
abstract as the bounds `lo`/`hi`. -/

/-- The `WHERE` clause of the stats query. -/
def statsFilter (lo hi : Int) (slotQ : String) (m : Row) : Bool :=
  decide (lo ≤ m.ts) && decide (m.ts ≤ hi) && (slotQ == "all" || m.slot == slotQ)

/-- One `GROUP BY slot` output row. -/
structure SlotStat where
  slot : String
  messages : Nat
  unique_clients : Nat
deriving DecidableEq

/-- The grouped rows: one per slot having at least one matching message,
with the group's row count and its count of distinct `from_number` values. -/
def statsRows (db : List Row) (lo hi : Int) (slotQ : String) : List SlotStat :=
  let f := db.filter (statsFilter lo hi slotQ)
  ((f.map Row.slot).dedup).map fun s =>
    let g := f.filter fun m => m.slot == s
    ⟨s, g.length, ((g.map Row.from_number).dedup).length⟩

/-- The `totals` accumulator of the `rows.reduce(...)` call. -/
structure Totals where
  messages : Nat
  unique_clients : Nat
deriving DecidableEq

/-- Accumulation `rows.reduce((a, r) => ({messages: a.messages + r.messages,
unique_clients: a.unique_clients + r.unique_clients}), {messages: 0,
unique_clients: 0})`. -/
def statsTotals (rows : List SlotStat) : Totals :=
  rows.foldl (fun a r => ⟨a.messages + r.messages,
    a.unique_clients + r.unique_clients⟩) ⟨0, 0⟩

theorem statsTotals_foldl (rows : List SlotStat) :
    ∀ init : Totals,
      rows.foldl (fun a r => (⟨a.messages + r.messages,
          a.unique_clients + r.unique_clients⟩ : Totals)) init =
        ⟨init.messages + (rows.map SlotStat.messages).sum,
         init.unique_clients + (rows.map SlotStat.unique_clients).sum⟩ := by
  induction rows with
  | nil => intro init; simp
  | cons r rs ih =>
    intro init
    rw [List.foldl_cons, ih]
    simp [Nat.add_assoc]

theorem statsTotals_eq (rows : List SlotStat) :
    statsTotals rows = ⟨(rows.map SlotStat.messages).sum,
      (rows.map SlotStat.unique_clients).sum⟩ := by
  rw [statsTotals, statsTotals_foldl]
  simp

theorem list_sum_count_dedup {α : Type} [DecidableEq α] (l : List α) :
    (l.dedup.map fun s => l.count s).sum = l.length := by
  have h := Multiset.toFinset_sum_count_eq (l : Multiset α)
  rw [Finset.sum] at h
  simp only [Multiset.toFinset_val, Multiset.coe_card, Multiset.coe_dedup] at h
  rw [← h]
  simp

theorem length_filter_slot_eq_count (f : List Row) (s : String) :
    (f.filter fun m => m.slot == s).length = (f.map Row.slot).count s := by
  rw [← List.countP_eq_length_filter, List.count, List.countP_map]
  rfl

/-- C10: the `totals` of `GET /stats` are the field-wise sums of the per-slot
rows; in particular the total message count is the count of all messages in
range, the per-slot list names exactly the slots with at least one message in
range (absent slots contribute nothing), and the distinct-counterparts total
counts a counterpart once per slot it appears in: on a store where the single
counterpart `"5"` is active in slots `"A"` and `"B"`, `totals.unique_clients`
is 2 while only 1 distinct counterpart exists globally. -/
theorem c10_stats_totals_per_slot (db : List Row) (lo hi : Int) (slotQ : String) :
    (statsTotals (statsRows db lo hi slotQ)).messages =
      (db.filter (statsFilter lo hi slotQ)).length ∧
    (statsTotals (statsRows db lo hi slotQ)).unique_clients =
      ((statsRows db lo hi slotQ).map SlotStat.unique_clients).sum ∧
    (∀ s : String,
      s ∈ (statsRows db lo hi slotQ).map SlotStat.slot ↔
        ∃ m ∈ db, statsFilter lo hi slotQ m = true ∧ m.slot = s) ∧
    ((statsTotals (statsRows
        [(⟨"A", "5@x", "5", 5, "in", "a"⟩ : Row),
         (⟨"B", "5@y", "5", 5, "in", "b"⟩ : Row)] 0 10 "all")).unique_clients = 2 ∧
      ((([(⟨"A", "5@x", "5", 5, "in", "a"⟩ : Row),
          (⟨"B", "5@y", "5", 5, "in", "b"⟩ : Row)].filter
            (statsFilter 0 10 "all")).map Row.from_number).dedup).length = 1) := by
  refine ⟨?_, ?_, ?_, by decide, by decide⟩
  · rw [statsTotals_eq]
    show ((statsRows db lo hi slotQ).map SlotStat.messages).sum = _
    rw [statsRows]
    have hcomp : (((db.filter (statsFilter lo hi slotQ)).map Row.slot).dedup.map
        fun s =>
          let g := (db.filter (statsFilter lo hi slotQ)).filter fun m => m.slot == s
          (⟨s, g.length, ((g.map Row.from_number).dedup).length⟩ : SlotStat)).map
          SlotStat.messages =
        ((db.filter (statsFilter lo hi slotQ)).map Row.slot).dedup.map
          fun s => ((db.filter (statsFilter lo hi slotQ)).map Row.slot).count s := by
      rw [List.map_map]
      apply List.map_congr_left
      intro s _
      show ((db.filter (statsFilter lo hi slotQ)).filter
        fun m => m.slot == s).length = _
      rw [length_filter_slot_eq_count]
    rw [hcomp, list_sum_count_dedup, List.length_map]
  · rw [statsTotals_eq]
  · intro s
    rw [statsRows]
    rw [List.map_map]
    constructor
    · intro hs
      obtain ⟨t, ht, hts⟩ := List.mem_map.mp hs
      have : t ∈ (db.filter (statsFilter lo hi slotQ)).map Row.slot :=
        List.mem_dedup.mp ht
      obtain ⟨m, hm, hms⟩ := List.mem_map.mp this
      refine ⟨m, (List.mem_filter.mp hm).1, (List.mem_filter.mp hm).2, ?_⟩
      rw [hms]
      simpa using hts
    · intro ⟨m, hm, hpred, hms⟩
      refine List.mem_map.mpr ⟨s, List.mem_dedup.mpr ?_, rfl⟩
      exact List.mem_map.mpr ⟨m, List.mem_filter.mpr ⟨hm, hpred⟩, hms⟩

/-- Witness for C10: at a one-message store the totals equal the in-range
count and the per-slot list names exactly slot "A". -/
theorem c10_stats_witness :
    ((statsTotals (statsRows [(⟨"A", "5@x", "5", 5, "in", "a"⟩ : Row)] 0 10 "all")).messages =
      ([(⟨"A", "5@x", "5", 5, "in", "a"⟩ : Row)].filter (statsFilter 0 10 "all")).length ∧
     ("A" ∈ (statsRows [(⟨"A", "5@x", "5", 5, "in", "a"⟩ : Row)] 0 10 "all").map
        SlotStat.slot ↔
      ∃ m ∈ [(⟨"A", "5@x", "5", 5, "in", "a"⟩ : Row)],
        statsFilter 0 10 "all" m = true ∧ m.slot = "A")) :=
  ⟨(c10_stats_totals_per_slot [(⟨"A", "5@x", "5", 5, "in", "a"⟩ : Row)] 0 10 "all").1,
   (c10_stats_totals_per_slot [(⟨"A", "5@x", "5", 5, "in", "a"⟩ : Row)] 0 10 "all").2.2.1 "A"⟩

end Autoboulevard
